import Mathlib

/-!
Verification of the kaizen-sweep repository selector
(`.github/kaizen-sweep/select-repos.py`).

The selector is a pure function of a configuration object and an
hour-of-week integer.  We embed the configuration shape and the three
relevant functions of the script — `is_active_time`, `select_repos` and
the hour-range validation performed by `main` — as executable Lean
definitions, and prove the specified properties about them.

Python dictionaries (repo records and override maps) are modelled as
association lists with first-occurrence lookup; `dict.update` is
modelled by `dictUpdate`, which keeps the insertion order of existing
keys and appends new keys, exactly as CPython does.  Python's `%` on
integers agrees with Lean's `Int.emod` for a positive right operand,
which is the only case the script exercises (`total_repos > 0` on the
path where `%` is evaluated).
-/

/-- A repo record: a Python dict with string keys and string values. -/
abbrev Dict := List (String × String)

/-- The `settings` mapping of the configuration.  `none` models an
absent (or `null`) key, matching `settings.get(...)` in the script. -/
structure Settings where
  active_hours : Option (List Nat) := none
  active_days : Option (List Nat) := none
  repos_per_hour : Option Int := none
deriving DecidableEq, Repr

/-- The configuration object: `settings`, `active_repos`, `overrides`. -/
structure Config where
  settings : Settings := {}
  active_repos : List Dict := []
  overrides : List (String × Dict) := []
deriving DecidableEq, Repr

/-- `is_active_time(hour_of_week, settings)` from the script: the hour
is rejected when `active_days` is present and the day index is not a
member, or when `active_hours` is present and the hour of day is not a
member; otherwise it is accepted. -/
def is_active_time (hour_of_week : Nat) (settings : Settings) : Bool :=
  let day_index := hour_of_week / 24
  let hour_of_day := hour_of_week % 24
  if settings.active_days.isSome && !((settings.active_days.getD []).contains day_index) then
    false
  else if settings.active_hours.isSome && !((settings.active_hours.getD []).contains hour_of_day) then
    false
  else
    true

/-- Python's `x or default` applied to an optional list: both an absent
key and a present-but-empty list fall back to the default. -/
def orDefault (o : Option (List Nat)) (d : List Nat) : List Nat :=
  match o with
  | some l => if l.isEmpty then d else l
  | none => d

/-- `dict.update` on association lists: every existing key of `base`
keeps its place but takes the value from `ov` when `ov` has that key,
and keys of `ov` that are new to `base` are appended in order. -/
def dictUpdate (base ov : Dict) : Dict :=
  base.map (fun kv =>
    match ov.lookup kv.1 with
    | some v => (kv.1, v)
    | none => kv)
  ++ ov.filter (fun kv => (base.lookup kv.1).isNone)

/-- The override step of the selection loop: `repo.get("name")`, and if
that name is a key of `overrides`, `repo.update(overrides[name])`. -/
def applyOverride (overrides : List (String × Dict)) (repo : Dict) : Dict :=
  match repo.lookup "name" with
  | some nm =>
    match overrides.lookup nm with
    | some ov => dictUpdate repo ov
    | none => repo
  | none => repo

/-- `select_repos(config, hour_of_week)` from the script, translated
line by line.  `repos_per_hour` is kept as an `Int` (Python ints are
unbounded and unvalidated here); `range(repos_per_hour)` becomes
`List.range repos_per_hour.toNat`, and the two `%` computations use
`Int.emod`, which agrees with Python `%` for the positive modulus
`total_repos`. -/
def select_repos (config : Config) (hour_of_week : Nat) : List Dict :=
  let settings := config.settings
  let active_repos := config.active_repos
  let overrides := config.overrides
  if active_repos.isEmpty then
    []
  else if !(is_active_time hour_of_week settings) then
    []
  else
    let repos_per_hour : Int := settings.repos_per_hour.getD 1
    let total_repos := active_repos.length
    let active_hours := orDefault settings.active_hours (List.range 24)
    let active_days := orDefault settings.active_days (List.range 7)
    let day_index := hour_of_week / 24
    let hour_of_day := hour_of_week % 24
    let day_position := if day_index ∈ active_days then active_days.indexOf day_index else 0
    let hour_position := if hour_of_day ∈ active_hours then active_hours.indexOf hour_of_day else 0
    let active_hour_index := day_position * active_hours.length + hour_position
    let start_index : Int := ((active_hour_index : Int) * repos_per_hour) % (total_repos : Int)
    (List.range repos_per_hour.toNat).map (fun (i : Nat) =>
      let repo_index := ((start_index + (i : Int)) % (total_repos : Int)).toNat
      applyOverride overrides (active_repos.getD repo_index []))

/-- The hour validation and dispatch of `main`, after the configuration
has been loaded and the hour resolved: an hour outside `[0, 167]`
prints a range error naming the value and exits with status 1
(modelled as `Except.error`), and otherwise the selection runs. -/
def run_main (config : Config) (hour : Int) : Except String (List Dict) :=
  if hour < 0 || hour > 167 then
    Except.error ("Error: Hour of week must be between 0 and 167, got " ++ toString hour)
  else
    Except.ok (select_repos config hour.toNat)

/-- The selection positions as the specification describes them, in
plain natural-number arithmetic: ordinal of the day within the active
days list, ordinal of the hour within the active hours list, the dense
active-hour index, the rotating start index, and the mod-wrapped
window of `repos_per_hour` positions. -/
def spec_positions (config : Config) (hour_of_week : Nat) : List Nat :=
  let s := config.settings
  let rph := (s.repos_per_hour.getD 1).toNat
  let total := config.active_repos.length
  let hoursList := orDefault s.active_hours (List.range 24)
  let daysList := orDefault s.active_days (List.range 7)
  let day_ordinal := if hour_of_week / 24 ∈ daysList then daysList.indexOf (hour_of_week / 24) else 0
  let hour_ordinal := if hour_of_week % 24 ∈ hoursList then hoursList.indexOf (hour_of_week % 24) else 0
  let active_hour_index := day_ordinal * hoursList.length + hour_ordinal
  let start_index := (active_hour_index * rph) % total
  (List.range rph).map (fun i => (start_index + i) % total)

/-! ### Concrete configurations used as witnesses and counterexamples -/

/-- One repo, `repos_per_hour = 2`, no window restrictions. -/
def cfgOneRepo : Config :=
  { settings := { repos_per_hour := some 2 },
    active_repos := [[("name", "a")]] }

/-- Three repos, `repos_per_hour = 2`, no window restrictions. -/
def cfgThreeRepos : Config :=
  { settings := { repos_per_hour := some 2 },
    active_repos := [[("name", "r0")], [("name", "r1")], [("name", "r2")]] }

/-! ### C6: empty repo list -/

/-- Claim C6: when `active_repos` is empty, `select_repos` returns the
empty sequence for every hour-of-week, regardless of the window. -/
theorem select_repos_empty_repos (cfg : Config) (h : Nat)
    (he : cfg.active_repos = []) : select_repos cfg h = [] := by
  simp [select_repos, he]

theorem select_repos_empty_repos_witness :
    ({} : Config).active_repos = [] ∧ select_repos {} 100 = [] :=
  ⟨rfl, select_repos_empty_repos {} 100 rfl⟩

/-! ### C7: determinism -/

/-- Claim C7: `select_repos` is deterministic — identical
`(config, hour_of_week)` inputs yield identical results; the embedding
is a pure function, so the result depends on nothing else. -/
theorem select_repos_deterministic (c₁ c₂ : Config) (h₁ h₂ : Nat)
    (hc : c₁ = c₂) (hh : h₁ = h₂) :
    select_repos c₁ h₁ = select_repos c₂ h₂ := by
  subst hc; subst hh; rfl

theorem select_repos_deterministic_witness :
    select_repos cfgOneRepo 3 = select_repos cfgOneRepo 3 :=
  select_repos_deterministic cfgOneRepo cfgOneRepo 3 3 rfl rfl

/-! ### C8: hour-of-week range validation in `main` -/

/-- Claim C8: an hour-of-week outside `[0, 167]` makes `main` report a
range error naming the offending value and exit non-zero, without
running the selection. -/
theorem run_main_out_of_range (cfg : Config) (hour : Int)
    (hr : hour < 0 ∨ 167 < hour) :
    run_main cfg hour =
      Except.error ("Error: Hour of week must be between 0 and 167, got "
        ++ toString hour) := by
  have hcond : (decide (hour < 0) || decide (hour > 167)) = true := by
    rcases hr with hr | hr <;> simp [hr]
  simp [run_main, hcond]

theorem run_main_out_of_range_witness :
    ((200 : Int) < 0 ∨ 167 < (200 : Int)) ∧
      run_main {} 200 =
        Except.error ("Error: Hour of week must be between 0 and 167, got "
          ++ toString (200 : Int)) :=
  ⟨Or.inr (by decide), run_main_out_of_range {} 200 (Or.inr (by decide))⟩

/-! ### C9: present-but-empty active_hours / active_days -/

/-- Claim C9: a present-but-empty `active_hours` (or `active_days`)
list makes `is_active_time` reject every hour, so `select_repos`
returns the empty sequence before the dense-index fallback (which
would treat the empty list as all hours/days) is ever reached. -/
theorem select_repos_empty_window (cfg : Config) (h : Nat)
    (hw : cfg.settings.active_hours = some [] ∨
          cfg.settings.active_days = some []) :
    select_repos cfg h = [] := by
  have hact : is_active_time h cfg.settings = false := by
    rcases hw with hw | hw
    · simp only [is_active_time, hw]
      split
      · rfl
      · simp
    · simp [is_active_time, hw]
  simp [select_repos, hact]

def cfgEmptyHours : Config :=
  { settings := { active_hours := some [] },
    active_repos := [[("name", "x")]] }

theorem select_repos_empty_window_witness :
    (cfgEmptyHours.settings.active_hours = some [] ∨
      cfgEmptyHours.settings.active_days = some []) ∧
      select_repos cfgEmptyHours 5 = [] :=
  ⟨Or.inl rfl, select_repos_empty_window cfgEmptyHours 5 (Or.inl rfl)⟩

/-! ### C10: non-positive repos_per_hour -/

/-- Claim C10: a zero or negative configured `repos_per_hour` does not
make `select_repos` fail; the loop body never runs and the result is
the empty sequence, even on an active hour with repos configured. -/
theorem select_repos_nonpos_rph (cfg : Config) (h : Nat) (r : Int)
    (hr : cfg.settings.repos_per_hour = some r) (hle : r ≤ 0) :
    select_repos cfg h = [] := by
  have hz : (cfg.settings.repos_per_hour.getD 1).toNat = 0 := by
    rw [hr]; simp [Int.toNat_of_nonpos hle]
  simp [select_repos, hz]

def cfgZeroRph : Config :=
  { settings := { repos_per_hour := some (-3) },
    active_repos := [[("name", "x")]] }

theorem select_repos_nonpos_rph_witness :
    cfgZeroRph.settings.repos_per_hour = some (-3) ∧ (-3 : Int) ≤ 0 ∧
      cfgZeroRph.active_repos ≠ [] ∧
      is_active_time 5 cfgZeroRph.settings = true ∧
      select_repos cfgZeroRph 5 = [] :=
  ⟨rfl, by decide, by decide, by decide,
    select_repos_nonpos_rph cfgZeroRph 5 (-3) rfl (by decide)⟩

/-! ### C1: result length -/

/-- Claim C1 as stated is false: with one configured repo and
`repos_per_hour = 2`, on an active hour with a non-empty repo list the
result has length 2, not `min(repos_per_hour, total_repos) = 1` — the
loop always produces `repos_per_hour` entries, repeating repos. -/
theorem select_repos_length_not_min :
    cfgOneRepo.active_repos ≠ [] ∧
      is_active_time 0 cfgOneRepo.settings = true ∧
      ¬ ((select_repos cfgOneRepo 0).length =
          min (cfgOneRepo.settings.repos_per_hour.getD 1).toNat
            cfgOneRepo.active_repos.length) := by
  decide

/-- Claim C1 amended: the result length is exactly `repos_per_hour`
(clamped to 0 if negative) when the hour is active and the repo list
is non-empty, and 0 otherwise; duplicates make up the excess when
`repos_per_hour` exceeds `total_repos`. -/
theorem select_repos_length (cfg : Config) (h : Nat) :
    (select_repos cfg h).length =
      if cfg.active_repos.isEmpty then 0
      else if !(is_active_time h cfg.settings) then 0
      else (cfg.settings.repos_per_hour.getD 1).toNat := by
  cases he : cfg.active_repos.isEmpty
  · cases ha : is_active_time h cfg.settings
    · simp [select_repos, he, ha]
    · simp [select_repos, he, ha]
  · simp [select_repos, he]

/-! ### C4: the active-window predicate -/

/-- Claim C4: `is_active_time` accepts an hour exactly when every
configured dimension admits it — a configured `active_days` must
contain the day index, a configured `active_hours` must contain the
hour of day, and an absent key imposes no restriction (so with both
keys absent every hour is active). -/
theorem is_active_time_spec (h : Nat) (s : Settings) :
    is_active_time h s = true ↔
      ((∀ ds, s.active_days = some ds → h / 24 ∈ ds) ∧
       (∀ hs, s.active_hours = some hs → h % 24 ∈ hs)) := by
  cases hd : s.active_days <;> cases hh : s.active_hours <;>
    simp [is_active_time, hd, hh]

/-! ### C5: override merge -/

/-- Lookup distributes over append: the left list is consulted first. -/
theorem lookup_append_or {α β : Type} [BEq α] (l₁ l₂ : List (α × β)) (k : α) :
    (l₁ ++ l₂).lookup k =
      match l₁.lookup k with
      | some v => some v
      | none => l₂.lookup k := by
  induction l₁ with
  | nil => simp
  | cons hd t ih =>
    obtain ⟨a, b⟩ := hd
    simp only [List.cons_append, List.lookup_cons]
    cases k == a <;> simp [ih]

/-- Lookup in the updated-in-place part of `dictUpdate`: an existing
key of `base` yields the override's value when present, and its base
value otherwise. -/
theorem lookup_update_part (base ov : Dict) (k : String) :
    (base.map (fun kv =>
      match ov.lookup kv.1 with
      | some v => (kv.1, v)
      | none => kv)).lookup k =
      (base.lookup k).map (fun bv => (ov.lookup k).getD bv) := by
  induction base with
  | nil => simp
  | cons hd t ih =>
    obtain ⟨a, b⟩ := hd
    simp only [List.map_cons]
    cases hk : k == a
    · cases hov : ov.lookup a <;>
        simp [List.lookup_cons, hk, ih]
    · have hka : k = a := eq_of_beq hk
      subst hka
      cases hov : ov.lookup k <;>
        simp [List.lookup_cons, hov]

/-- Lookup in the appended-new-keys part of `dictUpdate`: when `base`
does not have the key, the filter keeps every entry of `ov` with that
key, so the lookup agrees with a lookup in `ov`. -/
theorem lookup_new_part (base ov : Dict) (k : String)
    (hb : base.lookup k = none) :
    (ov.filter (fun kv => (base.lookup kv.1).isNone)).lookup k =
      ov.lookup k := by
  induction ov with
  | nil => simp
  | cons hd t ih =>
    obtain ⟨a, c⟩ := hd
    cases hk : k == a
    · cases hfa : (base.lookup a).isNone <;>
        simp [List.filter_cons, hfa, List.lookup_cons, hk, ih]
    · have hka : k = a := eq_of_beq hk
      subst hka
      simp [List.filter_cons, hb, List.lookup_cons]

/-- A mod-indexed `getD` into a non-empty list is a member of it. -/
theorem getD_emod_mem (l : List Dict) (a : Int) (hl : l ≠ []) :
    l.getD ((a % (l.length : Int)).toNat) [] ∈ l := by
  have hpos : 0 < l.length := List.length_pos.mpr hl
  have h0 : (0 : Int) < (l.length : Int) := by exact_mod_cast hpos
  have hnn : 0 ≤ a % (l.length : Int) := Int.emod_nonneg a (by omega)
  have hlt : a % (l.length : Int) < (l.length : Int) := Int.emod_lt_of_pos a h0
  have hn : (a % (l.length : Int)).toNat < l.length := by omega
  rw [List.getD_eq_getElem?_getD, List.getElem?_eq_getElem hn]
  simp [List.getElem_mem hn]

/-- Claim C5: every record returned by `select_repos` is the
override-merge of some base record from `active_repos`; when the base
record's name is a key of `overrides`, the merge is `dictUpdate`, and
`dictUpdate` is the shallow override-wins merge — a field named in the
override takes the override's value and every other field keeps its
base value. -/
theorem select_repos_override_merge :
    (∀ (cfg : Config) (h : Nat) (d : Dict), d ∈ select_repos cfg h →
       ∃ base ∈ cfg.active_repos, d = applyOverride cfg.overrides base) ∧
    (∀ (ovs : List (String × Dict)) (repo : Dict) (nm : String) (ov : Dict),
       repo.lookup "name" = some nm → ovs.lookup nm = some ov →
       applyOverride ovs repo = dictUpdate repo ov) ∧
    (∀ (repo ov : Dict) (k : String),
       (dictUpdate repo ov).lookup k =
         match ov.lookup k with
         | some v => some v
         | none => repo.lookup k) := by
  refine ⟨?_, ?_, ?_⟩
  · intro cfg h d hd
    cases he : cfg.active_repos.isEmpty with
    | true => simp [select_repos, he] at hd
    | false =>
      have hne : cfg.active_repos ≠ [] := List.isEmpty_eq_false.mp he
      cases ha : is_active_time h cfg.settings with
      | false => simp [select_repos, he, ha] at hd
      | true =>
        simp only [select_repos, he, ha, Bool.not_true, Bool.false_eq_true,
          if_false, List.mem_map, List.mem_range] at hd
        obtain ⟨i, hi, rfl⟩ := hd
        exact ⟨_, getD_emod_mem cfg.active_repos _ hne, rfl⟩
  · intro ovs repo nm ov h1 h2
    simp [applyOverride, h1, h2]
  · intro repo ov k
    unfold dictUpdate
    rw [lookup_append_or, lookup_update_part]
    cases hb : repo.lookup k
    · rw [lookup_new_part repo ov k hb]
      cases ov.lookup k <;> simp
    · cases hov : ov.lookup k <;> simp [hov]

/-- The `"alpha"` base record of the specification's merge example. -/
def repoAlpha : Dict := [("name", "alpha"), ("branch", "main"), ("url", "u")]

/-- The `"alpha"` override of the specification's merge example. -/
def ovAlpha : Dict := [("branch", "dev")]

/-- Configuration selecting `"alpha"` with a branch override. -/
def cfgAlpha : Config :=
  { active_repos := [repoAlpha],
    overrides := [("alpha", ovAlpha)] }

theorem select_repos_override_merge_witness :
    (∃ base ∈ cfgAlpha.active_repos,
        [("name", "alpha"), ("branch", "dev"), ("url", "u")] =
          applyOverride cfgAlpha.overrides base) ∧
      applyOverride cfgAlpha.overrides repoAlpha = dictUpdate repoAlpha ovAlpha ∧
      (dictUpdate repoAlpha ovAlpha).lookup "branch" = some "dev" ∧
      (dictUpdate repoAlpha ovAlpha).lookup "name" = some "alpha" ∧
      (dictUpdate repoAlpha ovAlpha).lookup "url" = some "u" :=
  ⟨select_repos_override_merge.1 cfgAlpha 0
      [("name", "alpha"), ("branch", "dev"), ("url", "u")] (by decide),
    select_repos_override_merge.2.1 cfgAlpha.overrides repoAlpha "alpha" ovAlpha
      (by decide) (by decide),
    (select_repos_override_merge.2.2 repoAlpha ovAlpha "branch").trans (by decide),
    (select_repos_override_merge.2.2 repoAlpha ovAlpha "name").trans (by decide),
    (select_repos_override_merge.2.2 repoAlpha ovAlpha "url").trans (by decide)⟩

/-! ### C2: the rotation arithmetic -/

/-- Casting the start-index computation between `Int` (as the code
performs it) and `Nat` (as the specification states it). -/
theorem emod_index_eq (ahi rphN total i : Nat) :
    ((((ahi : Int) * (rphN : Int)) % (total : Int) + (i : Int)) % (total : Int)).toNat =
      ((ahi * rphN) % total + i) % total := by
  norm_cast

/-- Claim C2: on an active hour with a non-empty repo list,
`select_repos` picks exactly the repos at the positions the
specification prescribes — `(start_index + i) mod total_repos` for
`i < repos_per_hour`, with
`start_index = (active_hour_index * repos_per_hour) mod total_repos`
and `active_hour_index = day_ordinal * len(active_hours_list) +
hour_ordinal` — as computed by `spec_positions`. -/
theorem select_repos_eq_spec_positions (cfg : Config) (h : Nat)
    (hne : cfg.active_repos ≠ [])
    (hact : is_active_time h cfg.settings = true) :
    select_repos cfg h =
      (spec_positions cfg h).map (fun p =>
        applyOverride cfg.overrides (cfg.active_repos.getD p [])) := by
  have he : cfg.active_repos.isEmpty = false := by simp [hne]
  simp only [select_repos, spec_positions, he, hact, Bool.not_true,
    Bool.false_eq_true, if_false, List.map_map]
  refine List.map_congr_left ?_
  intro i hi
  have hcast : cfg.settings.repos_per_hour.getD 1 =
      ((cfg.settings.repos_per_hour.getD 1).toNat : Int) := by
    rw [List.mem_range] at hi
    omega
  simp only [Function.comp]
  rw [hcast, emod_index_eq]
  simp only [Int.toNat_ofNat]

theorem select_repos_eq_spec_positions_witness :
    cfgThreeRepos.active_repos ≠ [] ∧
      is_active_time 2 cfgThreeRepos.settings = true ∧
      select_repos cfgThreeRepos 2 =
        (spec_positions cfgThreeRepos 2).map (fun p =>
          applyOverride cfgThreeRepos.overrides
            (cfgThreeRepos.active_repos.getD p [])) ∧
      spec_positions cfgThreeRepos 2 = [1, 2] ∧
      select_repos cfgThreeRepos 2 = [[("name", "r1")], [("name", "r2")]] :=
  ⟨by decide, by decide,
    select_repos_eq_spec_positions cfgThreeRepos 2 (by decide) (by decide),
    by decide, by decide⟩

/-! ### C3: round-robin rotation with one repo per hour -/

/-- Position of a value inside `List.range 7` (checked by evaluation). -/
theorem indexOf_range7 : ∀ d, d < 7 → (List.range 7).indexOf d = d := by decide

/-- Position of a value inside `List.range 24` (checked by evaluation). -/
theorem indexOf_range24 : ∀ d, d < 24 → (List.range 24).indexOf d = d := by decide

/-- With no overrides configured, the override step is the identity. -/
theorem applyOverride_nil (r : Dict) : applyOverride [] r = r := by
  unfold applyOverride
  cases r.lookup "name" <;> simp

/-- How many numbers below `m` have residue `k` modulo `N`. -/
theorem countP_mod_range (N k : Nat) (hk : k < N) (m : Nat) :
    (List.range m).countP (fun h => h % N == k) =
      m / N + (if k < m % N then 1 else 0) := by
  induction m with
  | zero => simp
  | succ m ih =>
    have hN : 0 < N := by omega
    have hr : m % N < N := Nat.mod_lt m hN
    have hqr := Nat.div_add_mod m N
    rw [List.range_succ, List.countP_append, ih]
    have hsingle : List.countP (fun h => h % N == k) [m] =
        if m % N = k then 1 else 0 := by
      simp [List.countP_cons]
    rw [hsingle]
    rcases Nat.lt_or_ge (m % N + 1) N with hc | hc
    · have hm1 : m + 1 = (m % N + 1) + N * (m / N) := by omega
      have hdiv : (m + 1) / N = m / N := by
        rw [hm1, Nat.add_mul_div_left _ _ hN, Nat.div_eq_of_lt hc, Nat.zero_add]
      have hmod : (m + 1) % N = m % N + 1 := by
        rw [hm1, Nat.add_mul_mod_self_left, Nat.mod_eq_of_lt hc]
      rw [hdiv, hmod]
      split_ifs <;> omega
    · have hexp : N * (m / N + 1) = N * (m / N) + N := by ring
      have hm1 : m + 1 = N * (m / N + 1) := by omega
      have hdiv : (m + 1) / N = m / N + 1 := by
        rw [hm1, Nat.mul_div_cancel_left _ hN]
      have hmod : (m + 1) % N = 0 := by
        rw [hm1, Nat.mul_mod_right]
      rw [hdiv, hmod]
      split_ifs <;> omega

/-- A configuration with one repo per hour and no window restriction. -/
def c3_config (repos : List Dict) : Config :=
  { settings := { repos_per_hour := some 1 }, active_repos := repos }

/-- On every valid hour, the one-repo-per-hour selection with all
hours active picks exactly the repo at position `h mod N`. -/
theorem c3_part1 (N : Nat) (repos : List Dict)
    (hN : 0 < N) (hlen : repos.length = N) :
    ∀ h : Nat, h ≤ 167 →
      select_repos (c3_config repos) h = [repos.getD (h % N) []] := by
  intro h hh
  have hne : repos ≠ [] := by
    intro hnil
    rw [hnil] at hlen
    simp at hlen
    omega
  have he : repos.isEmpty = false := by simp [hne]
  have hact2 : is_active_time h
      ({ active_hours := none, active_days := none,
         repos_per_hour := some 1 } : Settings) = true := by
    simp [is_active_time]
  have hd7 : h / 24 ∈ List.range 7 := List.mem_range.mpr (by omega)
  have hh24 : h % 24 ∈ List.range 24 := List.mem_range.mpr (by omega)
  simp only [select_repos, c3_config, he, hact2, Bool.not_true,
    Bool.false_eq_true, if_false, orDefault, Option.getD_some,
    List.length_range, hd7, hh24, if_pos, Int.toNat_one,
    indexOf_range7 (h / 24) (by omega), indexOf_range24 (h % 24) (by omega)]
  rw [show List.range 1 = [0] from rfl]
  simp only [List.map_cons, List.map_nil]
  have hahi : h / 24 * 24 + h % 24 = h := by omega
  rw [hahi]
  have hidx : (((h : Int) * 1 % (repos.length : Int) +
      ((0 : Nat) : Int)) % (repos.length : Int)).toNat = h % N := by
    simp only [Int.mul_one, Nat.cast_zero, Int.add_zero]
    rw [Int.emod_emod_of_dvd _ (dvd_refl _), hlen]
    norm_cast
  rw [hidx]
  simp [applyOverride_nil]

/-- Claim C3: with `N` distinct repos, `repos_per_hour = 1` and no
window restrictions, the repo selected at hour `h` is
`active_repos[h mod N]`; hence over the 168-hour week each repo is
selected `168/N` or `168/N + 1` times, cycling through the list in
order. -/
theorem select_repos_round_robin (N : Nat) (repos : List Dict)
    (hN : 0 < N) (hlen : repos.length = N) (hnodup : repos.Nodup) :
    (∀ h : Nat, h ≤ 167 →
        select_repos (c3_config repos) h = [repos.getD (h % N) []]) ∧
    (∀ k : Nat, k < N →
        (List.range 168).countP
            (fun h => select_repos (c3_config repos) h == [repos.getD k []]) =
          168 / N ∨
        (List.range 168).countP
            (fun h => select_repos (c3_config repos) h == [repos.getD k []]) =
          168 / N + 1) := by
  refine ⟨c3_part1 N repos hN hlen, ?_⟩
  intro k hk
  have hcong : (List.range 168).countP
      (fun h => select_repos (c3_config repos) h == [repos.getD k []]) =
      (List.range 168).countP (fun h => h % N == k) := by
    apply List.countP_congr
    intro x hx
    rw [List.mem_range] at hx
    rw [c3_part1 N repos hN hlen x (by omega)]
    have hxN : x % N < N := Nat.mod_lt x hN
    have h1 : x % N < repos.length := by omega
    have h2 : k < repos.length := by omega
    constructor
    · intro hb
      have heq : repos.getD (x % N) [] = repos.getD k [] := by
        have hl := eq_of_beq hb
        simpa using hl
      rw [List.getD_eq_getElem?_getD, List.getElem?_eq_getElem h1,
        List.getD_eq_getElem?_getD, List.getElem?_eq_getElem h2] at heq
      simp only [Option.getD_some] at heq
      have hik := (hnodup.getElem_inj_iff).mp heq
      simp [hik]
    · intro hb
      have hxk : x % N = k := eq_of_beq hb
      simp [hxk]
  rw [hcong, countP_mod_range N k hk 168]
  by_cases hs : k < 168 % N
  · right
    simp [hs]
  · left
    simp [hs]

/-- Three distinct repos for the round-robin witness. -/
def reposC3 : List Dict := [[("name", "s0")], [("name", "s1")], [("name", "s2")]]

theorem select_repos_round_robin_witness :
    (0 < 3 ∧ reposC3.length = 3 ∧ reposC3.Nodup) ∧
      select_repos (c3_config reposC3) 5 = [reposC3.getD (5 % 3) []] ∧
      ((List.range 168).countP
          (fun h => select_repos (c3_config reposC3) h == [reposC3.getD 1 []]) =
        168 / 3 ∨
       (List.range 168).countP
          (fun h => select_repos (c3_config reposC3) h == [reposC3.getD 1 []]) =
        168 / 3 + 1) :=
  ⟨⟨by decide, by decide, by decide⟩,
    (select_repos_round_robin 3 reposC3 (by decide) (by decide) (by decide)).1
      5 (by decide),
    (select_repos_round_robin 3 reposC3 (by decide) (by decide) (by decide)).2
      1 (by decide)⟩
